import Mathlib

/-!
Verification of the learning-coach backend core: the progression state
machine in `app/main.py`, the two concept-graph stores
(`app/supabase_store.py`, `app/graph_store.py`), and the scoring functions
shared between them.  Machine integers are modelled as `Int`/`Nat`,
float arithmetic as `ℚ`/`ℝ`, and each keyed table or graph component as a
function from its conflict key to an optional record, which is exactly the
semantics that the uniqueness constraints (`on_conflict=user_id,concept_id`
upserts, Cypher `MERGE` on unique ids) give the source code.
-/

namespace Teacher

/-! ## Python truthiness coercions

`n.get("title") or n.get("name") or ""` and `int(n.get("order") or 0)`
treat `None`, the empty string and `0` as falsy. -/

def truthyStr : Option String → Option String
  | some s => if s = "" then none else some s
  | none => none

def truthyInt : Option Int → Option Int
  | some n => if n = 0 then none else some n
  | none => none

/-- `str(a or b or "")` for two optional string fields. -/
def pyStrOr (a b : Option String) : String :=
  match truthyStr a with
  | some s => s
  | none => match truthyStr b with
    | some s => s
    | none => ""

/-- `str(a or d)` for an optional string field and a truthy default literal. -/
def pyStrOrD (a : Option String) (d : String) : String :=
  match truthyStr a with
  | some s => s
  | none => d

/-- `int(a or 0)`. -/
def pyIntOr (a : Option Int) : Int :=
  match truthyInt a with
  | some n => n
  | none => 0

/-- `int(a or b or 0)`. -/
def pyIntOr2 (a b : Option Int) : Int :=
  match truthyInt a with
  | some n => n
  | none => pyIntOr b

/-- `str(x)` on an optional string, `str(None) = "None"`. -/
def pyStr (a : Option String) : String :=
  match a with
  | some s => s
  | none => "None"

/-! Executable models of the Python string methods the stores use
(`.strip()`, `.lower()`, `.upper()`), as structural recursion over the
character list so the kernel can evaluate them on literals.  They agree
with Python on the ASCII fragment exercised by the code. -/

def dropLeadingWs : List Char → List Char
  | [] => []
  | c :: cs => if c.isWhitespace then dropLeadingWs cs else c :: cs

/-- `s.strip()`. -/
def strTrim (s : String) : String :=
  String.mk ((dropLeadingWs (dropLeadingWs s.data).reverse).reverse)

/-- `s.lower()`. -/
def strLower (s : String) : String :=
  String.mk (s.data.map Char.toLower)

/-- `s.upper()`. -/
def strUpper (s : String) : String :=
  String.mk (s.data.map Char.toUpper)

/-! ## StableIdentity: `_stable_id(name) = hashlib.sha1(name.encode("utf-8")).hexdigest()[:16]`

A full executable SHA-1 over the UTF-8 bytes of the name, so that concrete
identifier collisions/distinctions can be decided in the kernel. -/

/-- UTF-8 encoding of one scalar value (Python `str.encode("utf-8")`). -/
def utf8Char (c : Char) : List Nat :=
  let n := c.toNat
  if n < 128 then [n]
  else if n < 2048 then [192 + n / 64, 128 + n % 64]
  else if n < 65536 then [224 + n / 4096, 128 + (n / 64) % 64, 128 + n % 64]
  else [240 + n / 262144, 128 + (n / 4096) % 64, 128 + (n / 64) % 64, 128 + n % 64]

def utf8Bytes (s : String) : List Nat :=
  s.data.flatMap utf8Char

/-- 2^32, the word modulus of SHA-1. -/
def M32 : Nat := 4294967296

/-- Rotate a 32-bit word left by `n` bits. -/
def rotl (n x : Nat) : Nat :=
  ((x <<< n) % M32) ||| (x >>> (32 - n))

/-- Big-endian byte expansion, `k` bytes. -/
def beBytes (k n : Nat) : List Nat :=
  (List.range k).map (fun i => (n >>> (8 * (k - 1 - i))) % 256)

/-- SHA-1 padding: `0x80`, zeros to 56 mod 64, 8-byte big-endian bit length. -/
def sha1Pad (msg : List Nat) : List Nat :=
  msg ++ [128] ++ List.replicate ((119 - msg.length % 64) % 64) 0 ++ beBytes 8 (msg.length * 8)

/-- Split into 64-byte chunks; fuelled so the kernel can reduce it. -/
def chunkifyAux : Nat → List Nat → List (List Nat)
  | 0, _ => []
  | _, [] => []
  | fuel + 1, l => l.take 64 :: chunkifyAux fuel (l.drop 64)

def chunkify (l : List Nat) : List (List Nat) :=
  chunkifyAux l.length l

/-- Big-endian 32-bit words of a chunk. -/
def toWords : List Nat → List Nat
  | b0 :: b1 :: b2 :: b3 :: rest => (((b0 * 256 + b1) * 256 + b2) * 256 + b3) :: toWords rest
  | _ => []

/-- Message-schedule extension step, iterated 64 times. -/
def extendWords : Nat → List Nat → List Nat
  | 0, ws => ws
  | n + 1, ws =>
    let k := ws.length
    let wi := rotl 1 (((ws.getD (k - 3) 0 ^^^ ws.getD (k - 8) 0) ^^^ ws.getD (k - 14) 0) ^^^ ws.getD (k - 16) 0)
    extendWords n (ws ++ [wi])

def sha1F (t b c d : Nat) : Nat :=
  if t < 20 then (b &&& c) ||| ((4294967295 ^^^ b) &&& d)
  else if t < 40 then (b ^^^ c) ^^^ d
  else if t < 60 then ((b &&& c) ||| (b &&& d)) ||| (c &&& d)
  else (b ^^^ c) ^^^ d

def sha1K (t : Nat) : Nat :=
  if t < 20 then 1518500249
  else if t < 40 then 1859775393
  else if t < 60 then 2400959708
  else 3395469782

def sha1Rounds : List Nat → Nat → Nat × Nat × Nat × Nat × Nat → Nat × Nat × Nat × Nat × Nat
  | [], _, st => st
  | w :: ws, t, (a, b, c, d, e) =>
    let temp := (rotl 5 a + sha1F t b c d + e + sha1K t + w) % M32
    sha1Rounds ws (t + 1) (temp, a, rotl 30 b, c, d)

def sha1Chunk (h : Nat × Nat × Nat × Nat × Nat) (chunk : List Nat) : Nat × Nat × Nat × Nat × Nat :=
  let ws := extendWords 64 (toWords chunk)
  let (h0, h1, h2, h3, h4) := h
  let (a, b, c, d, e) := sha1Rounds ws 0 (h0, h1, h2, h3, h4)
  ((h0 + a) % M32, (h1 + b) % M32, (h2 + c) % M32, (h3 + d) % M32, (h4 + e) % M32)

def sha1Words (msg : List Nat) : Nat × Nat × Nat × Nat × Nat :=
  (chunkify (sha1Pad msg)).foldl sha1Chunk (1732584193, 4023233417, 2562383102, 271733878, 3285377520)

def hexDigit (n : Nat) : Char :=
  if n < 10 then Char.ofNat (48 + n) else Char.ofNat (87 + n)

def hex8 (n : Nat) : List Char :=
  (List.range 8).map (fun i => hexDigit ((n >>> (4 * (7 - i))) % 16))

def sha1Hex (msg : List Nat) : String :=
  let (h0, h1, h2, h3, h4) := sha1Words msg
  String.mk (hex8 h0 ++ hex8 h1 ++ hex8 h2 ++ hex8 h3 ++ hex8 h4)

/-- `_stable_id` of both stores: first 16 hex chars of the SHA-1 of the UTF-8 name. -/
def stableId (name : String) : String :=
  (sha1Hex (utf8Bytes name)).take 16

set_option maxRecDepth 100000 in
example : stableId "a" = "86f7e437faa5a7fc" := by decide

set_option maxRecDepth 100000 in
example : stableId "A" = "6dcd4ce23d88e2ee" := by decide

/-! ## ScoringEngine

`update_mastery` is the EMA update inlined at `supabase_store.py:110-111`
(`old * 0.7 + (float(score) / 100.0) * 0.3`, with a missing row or a null
`mastery_score` read as `0.0`) and at `graph_store.py:127`
(`coalesce(r.mastery_score, 0.0) * 0.7 + ($score / 100.0) * 0.3`). -/

def update_mastery (old : Option ℚ) (score : Int) : ℚ :=
  old.getD 0 * 0.7 + ((score : ℚ) / 100) * 0.3

/-- `_brightness_from_time` of both stores: `0.12` with no timestamp, else
`max(0.08, min(1.0, exp(-days/30)))` where
`days = max(0.0, (now - last).total_seconds() / 86400.0)`.
`last`/`now` are seconds on a real timeline. -/
noncomputable def brightness_from_time (last : Option ℝ) (now : ℝ) : ℝ :=
  match last with
  | none => 0.12
  | some t => max 0.08 (min 1 (Real.exp (-(max 0 ((now - t) / 86400) / 30))))

/-! ## Keyed-map machinery

Each store table/graph component is a function from its conflict key to an
optional record; a PostgREST `on_conflict` merge upsert or a Cypher `MERGE`
is a `mapPut` whose new record is computed by a merge function from the old
one, and a batch write is a left fold of such upserts. -/

def mapPut {κ α : Type} [DecidableEq κ] (k : κ) (v : α) (m : κ → Option α) : κ → Option α :=
  fun q => if q = k then some v else m q

def keyFold {κ ρ α : Type} [DecidableEq κ] (key : ρ → κ) (mrg : ρ → Option α → α)
    (l : List ρ) (m : κ → Option α) : κ → Option α :=
  l.foldl (fun m r => mapPut (key r) (mrg r (m (key r))) m) m

/-- The last row of `l` whose key is `k`, if any. -/
def lastMatch {κ ρ : Type} [DecidableEq κ] (key : ρ → κ) (k : κ) : List ρ → Option ρ
  | [] => none
  | r :: l =>
    match lastMatch key k l with
    | some q => some q
    | none => if key r = k then some r else none

theorem lastMatch_key {κ ρ : Type} [DecidableEq κ] (key : ρ → κ) (k : κ) :
    ∀ (l : List ρ) (q : ρ), lastMatch key k l = some q → key q = k := by
  intro l
  induction l with
  | nil => intro q h; simp [lastMatch] at h
  | cons r l ih =>
    intro q h
    simp only [lastMatch] at h
    cases hl : lastMatch key k l with
    | some p => rw [hl] at h; exact ih q (hl.trans h)
    | none =>
      rw [hl] at h
      by_cases hk : key r = k
      · simp [hk] at h; rw [← h]; exact hk
      · simp [hk] at h

theorem lastMatch_isSome {κ ρ : Type} [DecidableEq κ] (key : ρ → κ) (k : κ) :
    ∀ l : List ρ, (lastMatch key k l).isSome = l.any (fun r => decide (key r = k)) := by
  intro l
  induction l with
  | nil => simp [lastMatch]
  | cons r l ih =>
    simp only [lastMatch, List.any_cons]
    cases hl : lastMatch key k l with
    | some p =>
      rw [hl] at ih
      simp only [Option.isSome_some] at ih
      rw [← ih]
      simp
    | none =>
      rw [hl] at ih
      simp only [Option.isSome_none] at ih
      rw [← ih]
      by_cases hk : key r = k <;> simp [hk]

theorem keyFold_apply {κ ρ α : Type} [DecidableEq κ] (key : ρ → κ) (mrg : ρ → Option α → α)
    (k : κ) (hP : ∀ r q v, key r = k → key q = k → mrg r (some (mrg q v)) = mrg r v) :
    ∀ (l : List ρ) (m : κ → Option α),
      keyFold key mrg l m k =
        match lastMatch key k l with
        | none => m k
        | some r => some (mrg r (m k)) := by
  intro l
  induction l with
  | nil => intro m; rfl
  | cons r l ih =>
    intro m
    have hstep : keyFold key mrg (r :: l) m =
        keyFold key mrg l (mapPut (key r) (mrg r (m (key r))) m) := rfl
    rw [hstep, ih]
    by_cases hk : key r = k
    · subst hk
      have hput : mapPut (key r) (mrg r (m (key r))) m (key r) = some (mrg r (m (key r))) := by
        simp [mapPut]
      cases hl : lastMatch key (key r) l with
      | none =>
        simp only [lastMatch, hl]
        simp [hput]
      | some q =>
        simp only [lastMatch, hl]
        rw [hput, hP q r (m (key r)) (lastMatch_key key (key r) l q hl) rfl]
    · have hput : mapPut (key r) (mrg r (m (key r))) m k = m k := by
        simp only [mapPut]
        rw [if_neg (fun h => hk (Eq.symm h))]
      cases hl : lastMatch key k l with
      | none =>
        simp only [lastMatch, hl]
        rw [if_neg hk, hput]
      | some q =>
        simp only [lastMatch, hl]
        rw [hput]

theorem keyFold_idem {κ ρ α : Type} [DecidableEq κ] (key : ρ → κ) (mrg : ρ → Option α → α)
    (l : List ρ) (m : κ → Option α)
    (hP : ∀ r q v, mrg r (some (mrg q v)) = mrg r v) :
    keyFold key mrg l (keyFold key mrg l m) = keyFold key mrg l m := by
  funext k
  have hP' : ∀ r q v, key r = k → key q = k → mrg r (some (mrg q v)) = mrg r v :=
    fun r q v _ _ => hP r q v
  rw [keyFold_apply key mrg k hP', keyFold_apply key mrg k hP']
  cases hl : lastMatch key k l with
  | none => rfl
  | some r =>
    show some (mrg r (some (mrg r (m k)))) = some (mrg r (m k))
    rw [hP r r (m k)]

theorem keyFold_isSome {κ ρ α : Type} [DecidableEq κ] (key : ρ → κ) (mrg : ρ → Option α → α)
    (l : List ρ) (m : κ → Option α) (k : κ)
    (hP : ∀ r q v, mrg r (some (mrg q v)) = mrg r v) :
    (keyFold key mrg l m k).isSome = (l.any (fun r => decide (key r = k)) || (m k).isSome) := by
  have hP' : ∀ r q v, key r = k → key q = k → mrg r (some (mrg q v)) = mrg r v :=
    fun r q v _ _ => hP r q v
  rw [keyFold_apply key mrg k hP', ← lastMatch_isSome]
  cases hl : lastMatch key k l <;> simp [hl]

/-- A Cypher `MATCH ... MERGE` edge write: only succeeds when its guard
(the endpoints exist) holds, and merging an existing edge is a no-op. -/
def boolPut {κ : Type} [DecidableEq κ] (k : κ) (m : κ → Bool) : κ → Bool :=
  fun q => if q = k then true else m q

/-! ## JSON records crossing the store boundary -/

/-- A plan node / uploaded graph node as the stores read it
(`n.get("title")`, `n.get("name")`, `n.get("order")`, `n.get("level")`,
`n.get("node_id")`, `n.get("pass_score")`; absent keys are `none`). -/
structure NodeJson where
  node_id : Option String := none
  title : Option String := none
  name : Option String := none
  order : Option Int := none
  level : Option Int := none
  pass_score : Option Int := none
deriving DecidableEq

/-- An uploaded edge (`e.get("from"/"source"/"to"/"target"/"type")`). -/
structure EdgeJson where
  from_ : Option String := none
  source : Option String := none
  to_ : Option String := none
  target : Option String := none
  type : Option String := none
deriving DecidableEq

/-! ## SupabaseStore (`app/supabase_store.py`)

`user_concepts` is keyed by `(user_id, concept_id)` (the `on_conflict`
columns) and `user_edges` by `(user_id, source_id, target_id, type)`.
A `Prefer: resolution=merge-duplicates` POST updates exactly the payload
columns of an existing row and leaves the others as they were. -/

structure SbConcept where
  name : String
  level : Option Int
  last_seen_at : Option Int
  last_practice_at : Option Int
  mastery_score : Option ℚ
  updated_at : Int
deriving DecidableEq

@[ext]
structure SbState where
  concepts : String × String → Option SbConcept
  edges : String × String × String × String → Option Int

def emptySb : SbState :=
  { concepts := fun _ => none, edges := fun _ => none }

/-- A row of the concepts payload: derived id, resolved name, level. -/
structure ConceptRow where
  cid : String
  name : String
  level : Int
deriving DecidableEq

/-- Merge of a `{user_id, concept_id, name, level, last_seen_at, updated_at}`
payload row into `user_concepts`: the practice columns are not in the
payload, so they are preserved. -/
def seenMerge (now : Int) (r : ConceptRow) (old : Option SbConcept) : SbConcept :=
  { name := r.name
    level := some r.level
    last_seen_at := some now
    updated_at := now
    last_practice_at := match old with
      | some o => o.last_practice_at
      | none => none
    mastery_score := match old with
      | some o => o.mastery_score
      | none => none }

/-- The concept rows `upsert_plan_concepts` builds from the plan nodes:
`title = str(n.get("title") or n.get("name") or "").strip()`, empty titles
skipped, `level = int(n.get("order") or n.get("level") or 0)`. -/
def sbPlanRows (nodes : List NodeJson) : List ConceptRow :=
  nodes.filterMap (fun n =>
    let title := strTrim (pyStrOr n.title n.name)
    if title = "" then none
    else some { cid := stableId title, name := title, level := pyIntOr2 n.order n.level })

/-- `SupabaseStore.upsert_plan_concepts`: upsert the concept rows, then the
`PREREQ` chain `zip(concepts, concepts[1:])` keyed on all four columns. -/
def sb_upsert_plan_concepts (user_id : String) (nodes : List NodeJson) (now : Int)
    (st : SbState) : SbState :=
  let rows := sbPlanRows nodes
  let edgeRows := rows.zip rows.tail
  { concepts := keyFold (fun (r : ConceptRow) => (user_id, r.cid)) (seenMerge now) rows st.concepts
    edges := keyFold (fun (p : ConceptRow × ConceptRow) => (user_id, p.1.cid, p.2.cid, "PREREQ")) (fun _ _ => now)
      edgeRows st.edges }

/-- `SupabaseStore.update_practice`: read the old `mastery_score` of the
`(user_id, _stable_id(concept_title))` row (0.0 when the row is absent or
the column null), then upsert
`{user_id, concept_id, name, last_practice_at, mastery_score, updated_at}`.
The title is hashed exactly as passed (no strip). -/
def sb_update_practice (user_id concept_title : String) (score : Int) (now : Int)
    (st : SbState) : SbState :=
  let cid := stableId concept_title
  let newm := update_mastery ((st.concepts (user_id, cid)).bind SbConcept.mastery_score) score
  { st with
    concepts := mapPut (user_id, cid)
      { name := concept_title
        level := match st.concepts (user_id, cid) with
          | some o => o.level
          | none => none
        last_seen_at := match st.concepts (user_id, cid) with
          | some o => o.last_seen_at
          | none => none
        last_practice_at := some now
        mastery_score := some newm
        updated_at := now }
      st.concepts }

/-- Concept rows of `upload_graph`: note `name` is tried before `title`,
and the level comes from `n.get("level")` only. -/
def sbUploadRows (nodes : List NodeJson) : List ConceptRow :=
  nodes.filterMap (fun n =>
    let name := strTrim (pyStrOr n.name n.title)
    if name = "" then none
    else some { cid := stableId name, name := name, level := pyIntOr n.level })

/-- An edge row of `upload_graph` after endpoint resolution and type
normalisation. -/
structure EdgeRow where
  source_id : String
  target_id : String
  type : String
deriving DecidableEq

/-- `a = str(e.get("from") or e.get("source") or "").strip()` (likewise `b`);
rows with an empty endpoint are skipped; `typ = str(e.get("type") or
"PREREQ").upper()` and anything other than `PREREQ` becomes `REL`. -/
def sbUploadEdgeRows (edges : List EdgeJson) : List EdgeRow :=
  edges.filterMap (fun e =>
    let a := strTrim (pyStrOr e.from_ e.source)
    let b := strTrim (pyStrOr e.to_ e.target)
    if a = "" then none
    else if b = "" then none
    else
      let typ := strUpper (pyStrOrD e.type "PREREQ")
      some { source_id := stableId a
             target_id := stableId b
             type := if typ = "PREREQ" then "PREREQ" else "REL" })

/-- `SupabaseStore.upload_graph`. -/
def sb_upload_graph (user_id : String) (nodes : List NodeJson) (edges : List EdgeJson)
    (now : Int) (st : SbState) : SbState :=
  let rows := sbUploadRows nodes
  let rels := sbUploadEdgeRows edges
  { concepts := keyFold (fun (r : ConceptRow) => (user_id, r.cid)) (seenMerge now) rows st.concepts
    edges := keyFold (fun r => (user_id, r.source_id, r.target_id, r.type)) (fun _ _ => now)
      rels st.edges }

/-! ## Neo4jStore (`app/graph_store.py`)

`Concept` nodes are unique on `id`, `User` nodes on `id` (the
`ensure_schema` constraints); `SEEN`/`PRACTICED` edges are `MERGE`d per
`(user, concept)` pair and `PREREQ`/`REL` per `(source, target)` pair. -/

structure N4Concept where
  name : String
  level : Option Int
  created_at : Int
  updated_at : Int
deriving DecidableEq

structure Practiced where
  attempts : Int
  mastery_score : Option ℚ
  last_practice_at : Option Int
  last_score : Option Int
  last_passed : Option Bool
deriving DecidableEq

@[ext]
structure N4State where
  users : String → Bool
  concepts : String → Option N4Concept
  seen : String × String → Option Int
  practiced : String × String → Option Practiced
  prereq : String × String → Bool
  rel : String × String → Bool

def emptyN4 : N4State :=
  { users := fun _ => false, concepts := fun _ => none, seen := fun _ => none
    practiced := fun _ => none, prereq := fun _ => false, rel := fun _ => false }

/-- `MERGE (c:Concept {id}) SET c.name, c.level, c.updated_at ON CREATE SET
c.created_at` — but that statement is *invalid Cypher*: `ON CREATE SET` is
a subclause of `MERGE` and must directly follow the merge pattern; after
the standalone `SET` clause the parser rejects `ON`, so the statement
raises a syntax error instead of merging anything. -/
def cypherOnCreateAfterSetError : String :=
  "Invalid input ON"

/-- Concept rows of `Neo4jStore.upsert_plan_concepts`:
`name = str(n.get("title") or n.get("name") or "").strip()`, empty skipped,
`level = int(n.get("order") or 0)` (no `level` fallback here). -/
def n4PlanRows (nodes : List NodeJson) : List ConceptRow :=
  nodes.filterMap (fun n =>
    let name := strTrim (pyStrOr n.title n.name)
    if name = "" then none
    else some { cid := stableId name, name := name, level := pyIntOr n.order })

/-- `Neo4jStore.upsert_plan_concepts`: the user `MERGE` runs (and commits)
first; then for the first node with a nonempty trimmed name the loop
issues the invalid `MERGE … SET … ON CREATE SET` concept statement, which
raises, so nothing beyond the user merge is ever written and the raised
error is reported (second component).  Only when every node lacks a
resolvable name do the loops run zero statements and the call return
normally.  `now` is unused because the `datetime()` writes are never
reached. -/
def n4_upsert_plan_concepts (user_id : String) (nodes : List NodeJson) (_now : Int)
    (st : N4State) : N4State × Option String :=
  let rows := n4PlanRows nodes
  let st1 : N4State := { st with users := boolPut user_id st.users }
  match rows with
  | [] => (st1, none)
  | _ :: _ => (st1, some cypherOnCreateAfterSetError)

/-- The `MERGE (u)-[r:PRACTICED]->(c)` clause: `ON CREATE SET r.attempts=0,
r.mastery_score=0.0`, then unconditionally `SET` the counter, the practice
fields and the EMA from the edge's own previous `mastery_score`. -/
def practicedMerge (score : Int) (passed : Bool) (now : Int)
    (old : Option Practiced) : Practiced :=
  let r0 : Practiced := match old with
    | some o => o
    | none => { attempts := 0, mastery_score := some 0, last_practice_at := none
                last_score := none, last_passed := none }
  { attempts := r0.attempts + 1
    last_practice_at := some now
    last_score := some score
    last_passed := some passed
    mastery_score := some (update_mastery r0.mastery_score score) }

/-- `Neo4jStore.update_practice`: merge the user; merge the concept with
`ON CREATE SET name/created_at/updated_at` and `ON MATCH SET updated_at`
(the name of an existing concept is not overwritten); merge the
`PRACTICED` edge. -/
def n4_update_practice (user_id concept_title : String) (score : Int) (passed : Bool)
    (now : Int) (st : N4State) : N4State :=
  let cid := stableId concept_title
  { st with
    users := boolPut user_id st.users
    concepts := mapPut cid
      (match st.concepts cid with
       | some o => { o with updated_at := now }
       | none => { name := concept_title, level := none, created_at := now, updated_at := now })
      st.concepts
    practiced := mapPut (user_id, cid)
      (practicedMerge score passed now (st.practiced (user_id, cid)))
      st.practiced }

/-- `Neo4jStore.upload_graph`: merge the user (commits); the node loop skips
nodes whose resolved name (`name or title`, stripped) is empty, but the
first named node issues the same invalid `MERGE … SET … ON CREATE SET`
statement found in `upsert_plan_concepts`, which raises before the edge
loop is reached.  Only when *every* node is skipped does the edge loop run:
an edge with a blank endpoint is skipped, the type is
`str(e.get("type") or "PREREQ").upper()`, and the
`MATCH (a:Concept),(b:Concept) MERGE (a)-[:rel]->(b)` statement writes the
edge exactly when both endpoint concepts already exist. -/
def n4_upload_graph (user_id : String) (nodes : List NodeJson) (edges : List EdgeJson)
    (_now : Int) (st : N4State) : N4State × Option String :=
  let rows := sbUploadRows nodes
  let st1 : N4State := { st with users := boolPut user_id st.users }
  match rows with
  | _ :: _ => (st1, some cypherOnCreateAfterSetError)
  | [] =>
    let pr := edges.foldl (fun (pr : (String × String → Bool) × (String × String → Bool)) e =>
        let a := strTrim (pyStrOr e.from_ e.source)
        let b := strTrim (pyStrOr e.to_ e.target)
        if a = "" then pr
        else if b = "" then pr
        else
          let typ := strUpper (pyStrOrD e.type "PREREQ")
          let sa := stableId a
          let tb := stableId b
          if (st1.concepts sa).isSome && (st1.concepts tb).isSome then
            if typ = "PREREQ" then (boolPut (sa, tb) pr.1, pr.2)
            else (pr.1, boolPut (sa, tb) pr.2)
          else pr)
      (st.prereq, st.rel)
    ({ st1 with prereq := pr.1, rel := pr.2 }, none)

/-! ## Relational store (`app/db.py`) and the request handlers (`app/main.py`)

Only the columns the handlers read or write are modelled: a session's
owner and `unlocked_order`, a plan's outline and node array, and the
append-only attempt rows.  Tables keyed by a primary key are association
lists; `UPDATE ... WHERE session_id = ?` maps over matching rows and
`INSERT` appends. -/

structure Session where
  user_id : String
  unlocked_order : Int
deriving DecidableEq

structure Plan where
  outline : String
  nodes : List NodeJson
deriving DecidableEq

structure Attempt where
  session_id : String
  user_id : String
  node_id : String
  node_order : Int
  answer : String
  score : Int
  passed : Bool
  feedback : String
deriving DecidableEq

structure Db where
  sessions : List (String × Session)
  plans : List (String × Plan)
  attempts : List Attempt
deriving DecidableEq

def lookupAL {β : Type} (l : List (String × β)) (k : String) : Option β :=
  (l.find? (fun p => p.1 = k)).map (fun p => p.2)

/-- `UPDATE ... WHERE key = k` (no-op when no row matches). -/
def updateAL {β : Type} (l : List (String × β)) (k : String) (f : β → β) :
    List (String × β) :=
  l.map (fun p => if p.1 = k then (p.1, f p.2) else p)

/-- `INSERT ... ON CONFLICT(key) DO UPDATE` replacing the whole row
(`db.upsert_plan`). -/
def replaceAL {β : Type} (l : List (String × β)) (k : String) (v : β) :
    List (String × β) :=
  if (l.find? (fun p => p.1 = k)).isSome then updateAL l k (fun _ => v)
  else l ++ [(k, v)]

theorem lookupAL_cons {β : Type} (a : String) (b : β) (l : List (String × β)) (q : String) :
    lookupAL ((a, b) :: l) q = if a = q then some b else lookupAL l q := by
  by_cases h : a = q <;> simp [lookupAL, List.find?, h]

theorem lookupAL_updateAL {β : Type} (l : List (String × β)) (k q : String) (f : β → β) :
    lookupAL (updateAL l k f) q =
      if q = k then (lookupAL l q).map f else lookupAL l q := by
  induction l with
  | nil => by_cases h : q = k <;> simp [lookupAL, updateAL, h]
  | cons p l ih =>
    rcases p with ⟨a, b⟩
    have hstep : updateAL ((a, b) :: l) k f
        = (if a = k then (a, f b) else (a, b)) :: updateAL l k f := by
      simp [updateAL]
    rw [hstep]
    by_cases hak : a = k
    · rw [if_pos hak, lookupAL_cons, lookupAL_cons]
      by_cases haq : a = q
      · have hqk : q = k := haq.symm.trans hak
        simp [haq, hqk]
      · rw [if_neg haq, if_neg haq]
        exact ih
    · rw [if_neg hak, lookupAL_cons, lookupAL_cons]
      by_cases haq : a = q
      · have hqk : ¬ q = k := fun h => hak (haq.trans h)
        simp [haq, hqk]
      · rw [if_neg haq, if_neg haq]
        exact ih

/-- A grade as received from the external grader. -/
structure Grade where
  score : Int
  passed : Bool
  feedback : String
deriving DecidableEq

/-- An HTTP outcome: `HTTPException(status, detail)` or a typed body. -/
inductive HResp (α : Type) where
  | err (status : Nat) (detail : String)
  | ok (body : α)
deriving DecidableEq

structure AskOut where
  outline : String
  nodes : List NodeJson
  unlocked_order : Int
deriving DecidableEq

structure SubmitAnswerOut where
  node_id : String
  order : Int
  grade : Grade
  unlocked_order : Int
  finished : Bool
deriving DecidableEq

/-- `max(int(n.get("order") or 0) for n in nodes)` (callers guard `nodes`
nonempty; the empty case never feeds the result). -/
def maxOrder (nodes : List NodeJson) : Int :=
  match nodes.map (fun n => pyIntOr n.order) with
  | [] => 0
  | x :: xs => xs.foldl max x

/-- The `ask` handler after the external plan generator returned
`(outline, nodes)`: ownership checks, plan persistence, unlock reset to 1
(or 0 for an empty plan), then the best-effort graph write — `if sb:`
guarded by `sbAvail` and the `try/except Exception: pass` by `graphFails`.
The question row and session-title update touch no state read here and are
omitted. -/
def ask (db : Db) (g : SbState) (sbAvail graphFails : Bool)
    (session_id body_user : String) (outline : String) (nodes : List NodeJson)
    (now : Int) : Db × SbState × HResp AskOut :=
  match lookupAL db.sessions session_id with
  | none => (db, g, HResp.err 404 "session not found")
  | some s =>
    if s.user_id ≠ body_user then (db, g, HResp.err 403 "forbidden")
    else
      let db1 : Db := { db with plans := replaceAL db.plans session_id { outline := outline, nodes := nodes } }
      let db2 : Db := { db1 with
        sessions := updateAL db1.sessions session_id
          (fun t => { t with unlocked_order := if nodes.isEmpty then 0 else 1 }) }
      let g1 := if sbAvail then (if graphFails then g else sb_upsert_plan_concepts body_user nodes now g) else g
      let unlocked2 := match lookupAL db2.sessions session_id with
        | some s2 => s2.unlocked_order
        | none => s.unlocked_order
      (db2, g1, HResp.ok { outline := outline, nodes := nodes, unlocked_order := unlocked2 })

/-- The `submit` handler with the grader outcome passed in: ownership and
plan/node lookups, the lock check `order > unlocked → 409`, the append-only
attempt insert, and on a pass the unlock advance
`max(unlocked, order + 1)` followed by the best-effort
`update_practice` write. -/
def submit (db : Db) (g : SbState) (sbAvail graphFails : Bool)
    (session_id node_id body_user answer : String) (grade : Grade) (now : Int) :
    Db × SbState × HResp SubmitAnswerOut :=
  match lookupAL db.sessions session_id with
  | none => (db, g, HResp.err 404 "session not found")
  | some s =>
    if s.user_id ≠ body_user then (db, g, HResp.err 403 "forbidden")
    else
      match lookupAL db.plans session_id with
      | none => (db, g, HResp.err 400 "no plan yet; call /ask first")
      | some plan =>
        match plan.nodes.find? (fun n => pyStr n.node_id = node_id) with
        | none => (db, g, HResp.err 404 "node not found")
        | some node =>
          let order := pyIntOr node.order
          let unlocked := s.unlocked_order
          if order > unlocked then (db, g, HResp.err 409 "node locked")
          else
            let db1 : Db := { db with attempts := db.attempts ++
              [{ session_id := session_id, user_id := body_user, node_id := node_id
                 node_order := order, answer := answer, score := grade.score
                 passed := grade.passed, feedback := grade.feedback }] }
            let step : Db × SbState × Int :=
              if grade.passed then
                let nu := max unlocked (order + 1)
                let db2 : Db := { db1 with
                  sessions := updateAL db1.sessions session_id
                    (fun t => { t with unlocked_order := nu }) }
                let g1 := if sbAvail then
                    (if graphFails then g
                     else sb_update_practice body_user (node.title.getD "") grade.score now g)
                  else g
                (db2, g1, nu)
              else (db1, g, unlocked)
            let finished :=
              if plan.nodes.isEmpty then false
              else decide (step.2.2 > maxOrder plan.nodes)
            (step.1, step.2.1,
              HResp.ok { node_id := node_id, order := order, grade := grade
                         unlocked_order := step.2.2, finished := finished })

/-! ## Shared helper lemmas -/

theorem boolPut_idem {κ : Type} [DecidableEq κ] (k : κ) (m : κ → Bool) :
    boolPut k (boolPut k m) = boolPut k m := by
  funext q
  by_cases h : q = k <;> simp [boolPut, h]

theorem exp_two_lt_12p5 : Real.exp 2 < 12.5 := by
  have h1 := Real.exp_one_lt_d9
  have h0 := Real.exp_pos 1
  have h2 : Real.exp 2 = Real.exp 1 * Real.exp 1 := by
    rw [← Real.exp_add]
    norm_num
  nlinarith

theorem exp_neg_two_gt_0p08 : (0.08 : ℝ) < Real.exp (-2) := by
  rw [Real.exp_neg, show (0.08 : ℝ) = 12.5⁻¹ by norm_num]
  exact inv_strictAnti₀ (Real.exp_pos 2) exp_two_lt_12p5

theorem exp_neg_two_lt_one : Real.exp (-2) < 1 := by
  have h := Real.exp_lt_exp.mpr (show (-2 : ℝ) < 0 by norm_num)
  rwa [Real.exp_zero] at h

theorem exp_three_ge_12p5 : (12.5 : ℝ) ≤ Real.exp 3 := by
  have hq : (1 + 1 / 4 : ℝ) ≤ Real.exp (1 / 4) := by
    have h := Real.add_one_le_exp (1 / 4 : ℝ)
    linarith
  have hpow : ((5 / 4 : ℝ)) ^ (12 : ℕ) ≤ Real.exp (1 / 4) ^ (12 : ℕ) :=
    pow_le_pow_left₀ (by norm_num) (by linarith) 12
  have hexp : Real.exp (1 / 4) ^ (12 : ℕ) = Real.exp 3 := by
    rw [← Real.exp_nat_mul]
    norm_num
  calc (12.5 : ℝ) ≤ (5 / 4) ^ (12 : ℕ) := by norm_num
    _ ≤ Real.exp (1 / 4) ^ (12 : ℕ) := hpow
    _ = Real.exp 3 := hexp

theorem exp_neg_three_le_0p08 : Real.exp (-3) ≤ (0.08 : ℝ) := by
  rw [Real.exp_neg, show (0.08 : ℝ) = 12.5⁻¹ by norm_num]
  exact inv_anti₀ (by norm_num) exp_three_ge_12p5

/-- The 60-day brightness evaluates to `exp (-2)`. -/
theorem brightness_60_days : brightness_from_time (some 0) (60 * 86400) = Real.exp (-2) := by
  have h1 : max (0 : ℝ) (((60 * 86400 : ℝ) - 0) / 86400) / 30 = 2 := by
    rw [show ((60 * 86400 : ℝ) - 0) / 86400 = 60 by norm_num]
    rw [max_eq_right (by norm_num : (0 : ℝ) ≤ 60)]
    norm_num
  show max 0.08 (min 1 (Real.exp (-(max 0 (((60 * 86400 : ℝ) - 0) / 86400) / 30)))) = Real.exp (-2)
  rw [h1]
  rw [min_eq_right (le_of_lt exp_neg_two_lt_one)]
  rw [max_eq_right (le_of_lt exp_neg_two_gt_0p08)]

/-- The 90-day brightness evaluates to the `0.08` floor. -/
theorem brightness_90_days : brightness_from_time (some 0) (90 * 86400) = 0.08 := by
  have h1 : max (0 : ℝ) (((90 * 86400 : ℝ) - 0) / 86400) / 30 = 3 := by
    rw [show ((90 * 86400 : ℝ) - 0) / 86400 = 90 by norm_num]
    rw [max_eq_right (by norm_num : (0 : ℝ) ≤ 90)]
    norm_num
  show max 0.08 (min 1 (Real.exp (-(max 0 (((90 * 86400 : ℝ) - 0) / 86400) / 30)))) = 0.08
  rw [h1]
  have hlt1 : Real.exp (-3) < 1 := by
    have h := Real.exp_lt_exp.mpr (show (-3 : ℝ) < 0 by norm_num)
    rwa [Real.exp_zero] at h
  rw [min_eq_right (le_of_lt hlt1)]
  exact max_eq_left exp_neg_three_le_0p08

/-! ## Claims about the ScoringEngine -/

/-- Claim C4: `update_mastery` treats an absent prior mastery as 0.0 and
returns `old * 0.7 + (score / 100) * 0.3` for every integer score;
`update_mastery(absent, 100) = 0.3`, `update_mastery(0.3, 100) = 0.51`,
and the result lies in [0, 1] whenever `old ∈ [0, 1]` and
`score ∈ [0, 100]`. -/
theorem C4_update_mastery_ema :
    (∀ score : Int, update_mastery none score = 0 * 0.7 + ((score : ℚ) / 100) * 0.3) ∧
    (∀ (old : ℚ) (score : Int),
      update_mastery (some old) score = old * 0.7 + ((score : ℚ) / 100) * 0.3) ∧
    update_mastery none 100 = 0.3 ∧
    update_mastery (some 0.3) 100 = 0.51 ∧
    (∀ (old : ℚ) (score : Int), 0 ≤ old → old ≤ 1 → 0 ≤ score → score ≤ 100 →
      0 ≤ update_mastery (some old) score ∧ update_mastery (some old) score ≤ 1) := by
  refine ⟨fun score => rfl, fun old score => rfl, by norm_num [update_mastery],
    by norm_num [update_mastery], ?_⟩
  intro old score h0 h1 hs0 hs100
  have hq0 : (0 : ℚ) ≤ (score : ℚ) := by exact_mod_cast hs0
  have hq100 : (score : ℚ) ≤ 100 := by exact_mod_cast hs100
  constructor
  · simp only [update_mastery, Option.getD_some]
    nlinarith
  · simp only [update_mastery, Option.getD_some]
    nlinarith

/-- Witness for C4 at `old = 0.5`, `score = 80`. -/
theorem C4_update_mastery_ema_witness :
    ((0 : ℚ) ≤ 0.5 ∧ (0.5 : ℚ) ≤ 1 ∧ (0 : Int) ≤ 80 ∧ (80 : Int) ≤ 100) ∧
    (0 ≤ update_mastery (some 0.5) 80 ∧ update_mastery (some 0.5) 80 ≤ 1) :=
  ⟨by norm_num,
    C4_update_mastery_ema.2.2.2.2 0.5 80 (by norm_num) (by norm_num) (by norm_num) (by norm_num)⟩

/-- Claim C5: `brightness` returns exactly 0.12 with no recorded activity;
otherwise it is `clamp(exp(-d / 30), 0.08, 1.0)` where `d` is the elapsed
days clamped to be nonnegative, the result always lies in [0.08, 1.0], and
it is weakly decreasing in elapsed time (older timestamps are never
brighter). -/
theorem C5_brightness_decay :
    (∀ now : ℝ, brightness_from_time none now = 0.12) ∧
    (∀ now t : ℝ, brightness_from_time (some t) now
        = max 0.08 (min 1 (Real.exp (-(max 0 ((now - t) / 86400) / 30))))) ∧
    (∀ now t : ℝ, 0.08 ≤ brightness_from_time (some t) now
        ∧ brightness_from_time (some t) now ≤ 1) ∧
    (∀ now t1 t2 : ℝ, t2 ≤ t1 →
      brightness_from_time (some t2) now ≤ brightness_from_time (some t1) now) := by
  refine ⟨fun now => rfl, fun now t => rfl, ?_, ?_⟩
  · intro now t
    constructor
    · exact le_max_left 0.08 _
    · exact max_le (by norm_num) (min_le_left 1 _)
  · intro now t1 t2 h
    show max 0.08 (min 1 (Real.exp (-(max 0 ((now - t2) / 86400) / 30))))
        ≤ max 0.08 (min 1 (Real.exp (-(max 0 ((now - t1) / 86400) / 30))))
    have hd : max 0 ((now - t1) / 86400) ≤ max 0 ((now - t2) / 86400) := by
      apply max_le_max le_rfl
      apply div_le_div_of_nonneg_right (by linarith) (by norm_num)
    have he : Real.exp (-(max 0 ((now - t2) / 86400) / 30))
        ≤ Real.exp (-(max 0 ((now - t1) / 86400) / 30)) := by
      apply Real.exp_le_exp.mpr
      linarith
    exact max_le_max le_rfl (min_le_min le_rfl he)

/-- Witness for C5's monotonicity clause at `now = 5`, `t1 = 1`, `t2 = 0`. -/
theorem C5_brightness_decay_witness :
    ((0 : ℝ) ≤ 1) ∧ brightness_from_time (some 0) 5 ≤ brightness_from_time (some 1) 5 :=
  ⟨by norm_num, C5_brightness_decay.2.2.2 5 1 0 (by norm_num)⟩

/-- Counterexample to claim C6: at exactly 60 elapsed days the brightness is
`exp(-2) ≈ 0.135`, not the 0.08 floor. -/
theorem C6_brightness_60_days_counterexample :
    brightness_from_time (some 0) (60 * 86400) ≠ 0.08 := by
  rw [brightness_60_days]
  intro h
  have hgt := exp_neg_two_gt_0p08
  rw [h] at hgt
  exact lt_irrefl _ hgt

/-- Claim C6 as amended: at 60 elapsed days the brightness equals `exp(-2)`,
which is strictly above the 0.08 floor; the floor is reached only once
`exp(-d / 30) ≤ 0.08`, e.g. at 90 elapsed days the brightness is exactly
0.08. -/
theorem C6_brightness_floor_amended :
    brightness_from_time (some 0) (60 * 86400) = Real.exp (-2) ∧
    0.08 < Real.exp (-2) ∧
    brightness_from_time (some 0) (90 * 86400) = 0.08 :=
  ⟨brightness_60_days, exp_neg_two_gt_0p08, brightness_90_days⟩

/-! ## Claims about the graph stores -/

/-- Re-merging a `SEEN` payload row on top of a previous merge gives the
same record as merging on top of the original: the payload columns are
overwritten and the preserved practice columns pass through. -/
theorem seenMerge_chain (now2 now : Int) (r q : ConceptRow) (v : Option SbConcept) :
    seenMerge now2 r (some (seenMerge now q v)) = seenMerge now2 r v := by
  cases v <;> rfl

/-- Replaying `SupabaseStore.upsert_plan_concepts` at the same instant is a
no-op on the whole store state. -/
theorem sb_upsert_plan_idem (user_id : String) (nodes : List NodeJson) (now : Int)
    (g : SbState) :
    sb_upsert_plan_concepts user_id nodes now (sb_upsert_plan_concepts user_id nodes now g)
      = sb_upsert_plan_concepts user_id nodes now g :=
  SbState.ext
    (keyFold_idem (fun (r : ConceptRow) => (user_id, r.cid)) (seenMerge now) (sbPlanRows nodes)
      g.concepts (seenMerge_chain now now))
    (keyFold_idem (fun (p : ConceptRow × ConceptRow) => (user_id, p.1.cid, p.2.cid, "PREREQ")) (fun _ _ => now)
      ((sbPlanRows nodes).zip (sbPlanRows nodes).tail) g.edges (fun _ _ _ => rfl))

/-- The state component of `Neo4jStore.upsert_plan_concepts` is always just
the user merge: on an all-blank plan nothing else runs, and on a plan with
a named node the invalid concept statement raises before any further
write. -/
theorem n4_upsert_plan_fst (user_id : String) (nodes : List NodeJson) (now : Int)
    (st : N4State) :
    (n4_upsert_plan_concepts user_id nodes now st).1
      = { st with users := boolPut user_id st.users } := by
  simp only [n4_upsert_plan_concepts]
  cases h : n4PlanRows nodes <;> rfl

/-- Retrying `Neo4jStore.upsert_plan_concepts` on the state the failed (or
trivially succeeded) first call left behind reproduces the first call's
state and outcome exactly: the only write that ever lands, the user merge,
is idempotent. -/
theorem n4_upsert_plan_idem (user_id : String) (nodes : List NodeJson) (now : Int)
    (st : N4State) :
    n4_upsert_plan_concepts user_id nodes now
        (n4_upsert_plan_concepts user_id nodes now st).1
      = n4_upsert_plan_concepts user_id nodes now st := by
  rw [n4_upsert_plan_fst]
  show n4_upsert_plan_concepts user_id nodes now { st with users := boolPut user_id st.users }
      = n4_upsert_plan_concepts user_id nodes now st
  simp only [n4_upsert_plan_concepts, boolPut_idem]

/-- A replay at any later instant creates no concept row the first call had
not already created. -/
theorem sb_upsert_plan_concepts_isSome (user_id : String) (nodes : List NodeJson)
    (now now2 : Int) (g : SbState) (k : String × String) :
    ((sb_upsert_plan_concepts user_id nodes now2
        (sb_upsert_plan_concepts user_id nodes now g)).concepts k).isSome
      = ((sb_upsert_plan_concepts user_id nodes now g).concepts k).isSome := by
  rw [show ((sb_upsert_plan_concepts user_id nodes now2
        (sb_upsert_plan_concepts user_id nodes now g)).concepts k)
      = keyFold (fun (r : ConceptRow) => (user_id, r.cid)) (seenMerge now2) (sbPlanRows nodes)
          ((sb_upsert_plan_concepts user_id nodes now g).concepts) k from rfl]
  rw [keyFold_isSome (fun (r : ConceptRow) => (user_id, r.cid)) (seenMerge now2) (sbPlanRows nodes)
    ((sb_upsert_plan_concepts user_id nodes now g).concepts) k (seenMerge_chain now2 now2)]
  rw [show ((sb_upsert_plan_concepts user_id nodes now g).concepts k)
      = keyFold (fun (r : ConceptRow) => (user_id, r.cid)) (seenMerge now) (sbPlanRows nodes)
          g.concepts k from rfl]
  rw [keyFold_isSome (fun (r : ConceptRow) => (user_id, r.cid)) (seenMerge now) (sbPlanRows nodes)
    g.concepts k (seenMerge_chain now now)]
  rw [← Bool.or_assoc, Bool.or_self]

/-- A replay at any later instant creates no edge row the first call had
not already created. -/
theorem sb_upsert_plan_edges_isSome (user_id : String) (nodes : List NodeJson)
    (now now2 : Int) (g : SbState) (e : String × String × String × String) :
    ((sb_upsert_plan_concepts user_id nodes now2
        (sb_upsert_plan_concepts user_id nodes now g)).edges e).isSome
      = ((sb_upsert_plan_concepts user_id nodes now g).edges e).isSome := by
  rw [show ((sb_upsert_plan_concepts user_id nodes now2
        (sb_upsert_plan_concepts user_id nodes now g)).edges e)
      = keyFold (fun (p : ConceptRow × ConceptRow) => (user_id, p.1.cid, p.2.cid, "PREREQ")) (fun _ _ => now2)
          ((sbPlanRows nodes).zip (sbPlanRows nodes).tail)
          ((sb_upsert_plan_concepts user_id nodes now g).edges) e from rfl]
  rw [keyFold_isSome (fun (p : ConceptRow × ConceptRow) => (user_id, p.1.cid, p.2.cid, "PREREQ")) (fun _ _ => now2)
    ((sbPlanRows nodes).zip (sbPlanRows nodes).tail)
    ((sb_upsert_plan_concepts user_id nodes now g).edges) e (fun _ _ _ => rfl)]
  rw [show ((sb_upsert_plan_concepts user_id nodes now g).edges e)
      = keyFold (fun (p : ConceptRow × ConceptRow) => (user_id, p.1.cid, p.2.cid, "PREREQ")) (fun _ _ => now)
          ((sbPlanRows nodes).zip (sbPlanRows nodes).tail) g.edges e from rfl]
  rw [keyFold_isSome (fun (p : ConceptRow × ConceptRow) => (user_id, p.1.cid, p.2.cid, "PREREQ")) (fun _ _ => now)
    ((sbPlanRows nodes).zip (sbPlanRows nodes).tail) g.edges e (fun _ _ _ => rfl)]
  rw [← Bool.or_assoc, Bool.or_self]

/-- Claim C2 (a code bug on the Neo4j backend): on the Supabase backend
replaying `upsertPlanConcepts` with an identical plan for the same user
yields exactly the state of a single call, and even a replay at a later
instant creates no concept row and no edge row the first call had not
already created.  The Neo4j backend, however, cannot honour the contract
at all: its concept statement puts `ON CREATE SET` after a standalone
`SET`, which is invalid Cypher, so every plan containing at least one
named node makes the call raise after merging only the `User` node — no
Concept and no SEEN/PREREQ edge is ever written (a retry does reproduce
that truncated state exactly, the user merge being idempotent), as the
concrete run on a one-node plan shows. -/
theorem C2_upsert_plan_concepts_idempotent :
    (∀ (user_id : String) (nodes : List NodeJson) (now : Int) (g : SbState),
      sb_upsert_plan_concepts user_id nodes now (sb_upsert_plan_concepts user_id nodes now g)
        = sb_upsert_plan_concepts user_id nodes now g) ∧
    (∀ (user_id : String) (nodes : List NodeJson) (now now2 : Int) (g : SbState)
        (k : String × String),
      ((sb_upsert_plan_concepts user_id nodes now2
          (sb_upsert_plan_concepts user_id nodes now g)).concepts k).isSome
        = ((sb_upsert_plan_concepts user_id nodes now g).concepts k).isSome) ∧
    (∀ (user_id : String) (nodes : List NodeJson) (now now2 : Int) (g : SbState)
        (e : String × String × String × String),
      ((sb_upsert_plan_concepts user_id nodes now2
          (sb_upsert_plan_concepts user_id nodes now g)).edges e).isSome
        = ((sb_upsert_plan_concepts user_id nodes now g).edges e).isSome) ∧
    (∀ (user_id : String) (nodes : List NodeJson) (now : Int) (st : N4State),
      n4_upsert_plan_concepts user_id nodes now st
        = ({ st with users := boolPut user_id st.users },
           match n4PlanRows nodes with
           | [] => none
           | _ :: _ => some cypherOnCreateAfterSetError)) ∧
    (∀ (user_id : String) (nodes : List NodeJson) (now : Int) (st : N4State),
      n4_upsert_plan_concepts user_id nodes now
          (n4_upsert_plan_concepts user_id nodes now st).1
        = n4_upsert_plan_concepts user_id nodes now st) ∧
    n4_upsert_plan_concepts "u1" [{ title := some "A", order := some 1 }] 0 emptyN4
      = ({ emptyN4 with users := boolPut "u1" emptyN4.users },
         some cypherOnCreateAfterSetError) :=
  ⟨fun user_id nodes now g => sb_upsert_plan_idem user_id nodes now g,
   fun user_id nodes now now2 g k => sb_upsert_plan_concepts_isSome user_id nodes now now2 g k,
   fun user_id nodes now now2 g e => sb_upsert_plan_edges_isSome user_id nodes now now2 g e,
   fun user_id nodes now st => by
     simp only [n4_upsert_plan_concepts]
     cases h : n4PlanRows nodes <;> rfl,
   fun user_id nodes now st => n4_upsert_plan_idem user_id nodes now st,
   rfl⟩

theorem mapPut_same {κ α : Type} [DecidableEq κ] (k : κ) (v : α) (m : κ → Option α) :
    mapPut k v m k = some v := by
  simp [mapPut]

theorem mapPut_other {κ α : Type} [DecidableEq κ] (k q : κ) (v : α) (m : κ → Option α)
    (h : q ≠ k) : mapPut k v m q = m q := by
  simp [mapPut, h]

theorem mapPut_mapPut {κ α : Type} [DecidableEq κ] (k : κ) (v w : α) (m : κ → Option α) :
    mapPut k v (mapPut k w m) = mapPut k v m := by
  funext q
  by_cases h : q = k <;> simp [mapPut, h]

set_option maxRecDepth 100000 in
/-- Claim C3, as amended: on the Neo4j backend every `updatePractice` call
merge-creates the concept if absent (refreshing only `updated_at` when
present), keeps one `PRACTICED` record per `(user, concept)` whose
`attempts` counter grows by exactly 1 per call from an initial 0,
refreshes `last_practice_at` / `last_score` / `last_passed` every call,
and applies the EMA to the record's own prior mastery; concretely, two
calls with scores 80 then 60 starting from an empty graph leave
`attempts = 2`, `last_score = 60` and
`mastery_score = 0.7 * 0.24 + 0.18 = 0.348`.  The relational-REST backend
computes the same chained EMA (0.348 on that run) but keeps no attempts
counter and no `last_score` / `last_passed` (its `update_practice` is not
even passed `passed`): each call rewrites the `(user_id, concept_id)` row
with exactly the fields name / last_practice_at / mastery_score /
updated_at, preserving level / last_seen_at. -/
theorem C3_update_practice_behavior :
    (∀ (user_id title : String) (score : Int) (passed : Bool) (now : Int) (st : N4State),
      (n4_update_practice user_id title score passed now st).concepts (stableId title)
        = some (match st.concepts (stableId title) with
            | some o => { o with updated_at := now }
            | none => { name := title, level := none, created_at := now, updated_at := now }) ∧
      (∀ q : String × String,
        (n4_update_practice user_id title score passed now st).practiced q
          = if q = (user_id, stableId title)
            then some (practicedMerge score passed now (st.practiced (user_id, stableId title)))
            else st.practiced q) ∧
      ((n4_update_practice user_id title score passed now st).practiced
          (user_id, stableId title)).map Practiced.attempts
        = some (((st.practiced (user_id, stableId title)).map Practiced.attempts).getD 0 + 1) ∧
      ((n4_update_practice user_id title score passed now st).practiced
          (user_id, stableId title)).map Practiced.last_score = some (some score) ∧
      ((n4_update_practice user_id title score passed now st).practiced
          (user_id, stableId title)).map Practiced.last_passed = some (some passed) ∧
      ((n4_update_practice user_id title score passed now st).practiced
          (user_id, stableId title)).map Practiced.last_practice_at = some (some now) ∧
      ((n4_update_practice user_id title score passed now st).practiced
          (user_id, stableId title)).map Practiced.mastery_score
        = some (some (update_mastery
            ((st.practiced (user_id, stableId title)).bind Practiced.mastery_score) score))) ∧
    (∃ r : Practiced,
      (n4_update_practice "u1" "Recursion" 60 false 20
          (n4_update_practice "u1" "Recursion" 80 true 10 emptyN4)).practiced
        ("u1", stableId "Recursion") = some r ∧
      r.attempts = 2 ∧ r.last_score = some 60 ∧ r.last_passed = some false ∧
      r.mastery_score = some 0.348) ∧
    (∃ c : SbConcept,
      (sb_update_practice "u1" "Recursion" 60 20
          (sb_update_practice "u1" "Recursion" 80 10 emptySb)).concepts
        ("u1", stableId "Recursion") = some c ∧
      c.last_practice_at = some 20 ∧ c.mastery_score = some 0.348) ∧
    (∀ (user_id title : String) (score now : Int) (g : SbState),
      (sb_update_practice user_id title score now g).concepts (user_id, stableId title)
        = some { name := title
                 level := match g.concepts (user_id, stableId title) with
                   | some o => o.level
                   | none => none
                 last_seen_at := match g.concepts (user_id, stableId title) with
                   | some o => o.last_seen_at
                   | none => none
                 last_practice_at := some now
                 mastery_score := some (update_mastery
                   ((g.concepts (user_id, stableId title)).bind SbConcept.mastery_score) score)
                 updated_at := now }) := by
  refine ⟨?_, ?_, ?_, ?_⟩
  · intro user_id title score passed now st
    refine ⟨?_, ?_, ?_, ?_, ?_, ?_, ?_⟩
    · simp only [n4_update_practice]
      rw [mapPut_same]
    · intro q
      by_cases hq : q = (user_id, stableId title)
      · subst hq
        simp only [n4_update_practice]
        rw [mapPut_same]
        simp
      · simp only [n4_update_practice]
        rw [if_neg hq]
        simp [mapPut, hq]
    · simp only [n4_update_practice]
      rw [mapPut_same]
      cases h : st.practiced (user_id, stableId title) <;>
        simp [practicedMerge, h]
    · simp only [n4_update_practice]
      rw [mapPut_same]
      simp [practicedMerge]
    · simp only [n4_update_practice]
      rw [mapPut_same]
      simp [practicedMerge]
    · simp only [n4_update_practice]
      rw [mapPut_same]
      simp [practicedMerge]
    · simp only [n4_update_practice]
      rw [mapPut_same]
      cases h : st.practiced (user_id, stableId title) <;>
        simp [practicedMerge, h, update_mastery]
  · refine ⟨practicedMerge 60 false 20 (some (practicedMerge 80 true 10 none)), ?_, ?_, ?_, ?_, ?_⟩
    · simp only [n4_update_practice, emptyN4]
      rw [mapPut_same, mapPut_same]
    · simp [practicedMerge]
    · simp [practicedMerge]
    · simp [practicedMerge]
    · simp only [practicedMerge]
      norm_num [update_mastery]
  · refine ⟨{ name := "Recursion", level := none, last_seen_at := none
              last_practice_at := some 20
              mastery_score := some (update_mastery
                (some (update_mastery none 80)) 60)
              updated_at := 20 }, ?_, ?_, ?_⟩
    · simp only [sb_update_practice, emptySb]
      rw [mapPut_same, mapPut_same]
      simp
    · rfl
    · simp only []
      norm_num [update_mastery]
  · intro user_id title score now g
    simp only [sb_update_practice]
    rw [mapPut_same]

set_option maxRecDepth 1000000 in
/-- Counterexample to claim C3 as stated: the relational-REST backend keeps
no attempts counter.  Repeating an `update_practice` call at score 0 on the
store it produced rewrites a byte-identical row — the whole store state is
unchanged — so no integer-valued reading of the store can grow by exactly 1
on every call, as the claimed per-record `attempts` counter would. -/
theorem C3_update_practice_supabase_counterexample :
    sb_update_practice "u1" "T" 0 5 (sb_update_practice "u1" "T" 0 5 emptySb)
      = sb_update_practice "u1" "T" 0 5 emptySb ∧
    ¬ ∃ attemptsOf : SbState → Int,
        ∀ (user_id title : String) (score now : Int) (g : SbState),
          attemptsOf (sb_update_practice user_id title score now g)
            = attemptsOf g + 1 := by
  have hidem : sb_update_practice "u1" "T" 0 5 (sb_update_practice "u1" "T" 0 5 emptySb)
      = sb_update_practice "u1" "T" 0 5 emptySb := by
    refine SbState.ext (funext fun q => ?_) rfl
    by_cases hq : q = ("u1", stableId "T")
    · subst hq
      simp only [sb_update_practice, emptySb]
      simp only [mapPut_same]
      norm_num [update_mastery]
    · show (sb_update_practice "u1" "T" 0 5 (sb_update_practice "u1" "T" 0 5 emptySb)).concepts q
          = (sb_update_practice "u1" "T" 0 5 emptySb).concepts q
      simp only [sb_update_practice]
      simp only [mapPut]
      simp only [if_neg hq]
  refine ⟨hidem, ?_⟩
  rintro ⟨f, hf⟩
  have h1 := hf "u1" "T" 0 5 (sb_update_practice "u1" "T" 0 5 emptySb)
  rw [hidem] at h1
  omega

set_option maxRecDepth 1000000 in
/-- Counterexample to claim C7: the names "A" and "a" are equal after
lower-casing and trimming, yet they resolve to different stable ids, and
upserting plans with both names leaves two distinct Concept records for
the same user. -/
theorem C7_identity_lowercase_counterexample :
    strTrim (strLower "A") = strTrim (strLower "a") ∧
    stableId "A" ≠ stableId "a" ∧
    ((sb_upsert_plan_concepts "u1" [{ title := some "a" }] 0
        (sb_upsert_plan_concepts "u1" [{ title := some "A" }] 0 emptySb)).concepts
      ("u1", stableId "A")).isSome = true ∧
    ((sb_upsert_plan_concepts "u1" [{ title := some "a" }] 0
        (sb_upsert_plan_concepts "u1" [{ title := some "A" }] 0 emptySb)).concepts
      ("u1", stableId "a")).isSome = true := by
  have hid : stableId "A" ≠ stableId "a" := by decide
  have hkey : (("u1", stableId "A") : String × String) ≠ ("u1", stableId "a") := by
    intro h
    exact hid (congrArg Prod.snd h)
  have hrA : sbPlanRows [{ title := some "A" }]
      = [{ cid := stableId "A", name := "A", level := 0 }] := rfl
  have hra : sbPlanRows [{ title := some "a" }]
      = [{ cid := stableId "a", name := "a", level := 0 }] := rfl
  refine ⟨by decide, hid, ?_, ?_⟩
  · simp only [sb_upsert_plan_concepts, hrA, hra]
    simp only [keyFold, List.foldl]
    rw [mapPut_other _ _ _ _ hkey, mapPut_same]
    rfl
  · simp only [sb_upsert_plan_concepts, hrA, hra]
    simp only [keyFold, List.foldl]
    rw [mapPut_same]
    rfl

/-- Claim C7 as amended: the concept id is a deterministic function of the
*trimmed* name — there is no lower-casing, so case-variant names yield
distinct ids.  `upsertPlanConcepts` (and `uploadGraph`) trim the name
before hashing, so two plan upserts whose titles are equal after trimming
resolve to the same id, the repeat upsert is a no-op at equal times and
creates no second Concept record at any time; `updatePractice` hashes the
title exactly as passed (untrimmed) and touches no other row. -/
theorem C7_stable_identity_amended (a b : String) (hab : strTrim a = strTrim b)
    (hne : strTrim a ≠ "") (user_id title : String) (score now now1 now2 : Int)
    (g : SbState) (k : String × String) (hk : k ≠ (user_id, stableId title)) :
    sbPlanRows [{ title := some a }] = [{ cid := stableId (strTrim b), name := strTrim b, level := 0 }] ∧
    sb_upsert_plan_concepts user_id [{ title := some b }] now
        (sb_upsert_plan_concepts user_id [{ title := some a }] now g)
      = sb_upsert_plan_concepts user_id [{ title := some a }] now g ∧
    (∀ q : String × String,
      ((sb_upsert_plan_concepts user_id [{ title := some b }] now2
          (sb_upsert_plan_concepts user_id [{ title := some a }] now1 g)).concepts q).isSome
        = ((sb_upsert_plan_concepts user_id [{ title := some a }] now1 g).concepts q).isSome) ∧
    (sb_update_practice user_id title score now g).concepts k = g.concepts k := by
  have hbne : strTrim b ≠ "" := fun h => hne (hab.trans h)
  have ha : a ≠ "" := by
    intro h
    apply hne
    rw [h]
    rfl
  have hb : b ≠ "" := by
    intro h
    apply hbne
    rw [h]
    rfl
  have hrowa : sbPlanRows [{ title := some a }]
      = [{ cid := stableId (strTrim b), name := strTrim b, level := 0 }] := by
    simp only [sbPlanRows, List.filterMap_cons, List.filterMap_nil, pyStrOr, truthyStr,
      pyIntOr2, pyIntOr, truthyInt]
    rw [if_neg ha]
    simp only [hab]
    rw [if_neg hbne]
  have hrowb : sbPlanRows [{ title := some b }]
      = [{ cid := stableId (strTrim b), name := strTrim b, level := 0 }] := by
    simp only [sbPlanRows, List.filterMap_cons, List.filterMap_nil, pyStrOr, truthyStr,
      pyIntOr2, pyIntOr, truthyInt]
    rw [if_neg hb]
    rw [if_neg hbne]
  refine ⟨hrowa, ?_, ?_, ?_⟩
  · refine SbState.ext ?_ ?_
    · show keyFold (fun (r : ConceptRow) => (user_id, r.cid)) (seenMerge now)
          (sbPlanRows [{ title := some b }])
          (keyFold (fun (r : ConceptRow) => (user_id, r.cid)) (seenMerge now)
            (sbPlanRows [{ title := some a }]) g.concepts)
        = keyFold (fun (r : ConceptRow) => (user_id, r.cid)) (seenMerge now)
            (sbPlanRows [{ title := some a }]) g.concepts
      rw [hrowa, hrowb]
      exact keyFold_idem _ _ _ _ (seenMerge_chain now now)
    · show keyFold (fun (p : ConceptRow × ConceptRow) => (user_id, p.1.cid, p.2.cid, "PREREQ"))
          (fun _ _ => now)
          ((sbPlanRows [{ title := some b }]).zip (sbPlanRows [{ title := some b }]).tail)
          (keyFold (fun (p : ConceptRow × ConceptRow) => (user_id, p.1.cid, p.2.cid, "PREREQ"))
            (fun _ _ => now)
            ((sbPlanRows [{ title := some a }]).zip (sbPlanRows [{ title := some a }]).tail)
            g.edges)
        = keyFold (fun (p : ConceptRow × ConceptRow) => (user_id, p.1.cid, p.2.cid, "PREREQ"))
            (fun _ _ => now)
            ((sbPlanRows [{ title := some a }]).zip (sbPlanRows [{ title := some a }]).tail)
            g.edges
      rw [hrowa, hrowb]
      rfl
  · intro q
    show (keyFold (fun (r : ConceptRow) => (user_id, r.cid)) (seenMerge now2)
        (sbPlanRows [{ title := some b }])
        ((sb_upsert_plan_concepts user_id [{ title := some a }] now1 g).concepts) q).isSome
      = ((sb_upsert_plan_concepts user_id [{ title := some a }] now1 g).concepts q).isSome
    rw [keyFold_isSome (fun (r : ConceptRow) => (user_id, r.cid)) (seenMerge now2)
      (sbPlanRows [{ title := some b }])
      ((sb_upsert_plan_concepts user_id [{ title := some a }] now1 g).concepts) q
      (seenMerge_chain now2 now2)]
    rw [show ((sb_upsert_plan_concepts user_id [{ title := some a }] now1 g).concepts q)
        = keyFold (fun (r : ConceptRow) => (user_id, r.cid)) (seenMerge now1)
            (sbPlanRows [{ title := some a }]) g.concepts q from rfl]
    rw [keyFold_isSome (fun (r : ConceptRow) => (user_id, r.cid)) (seenMerge now1)
      (sbPlanRows [{ title := some a }]) g.concepts q (seenMerge_chain now1 now1)]
    rw [hrowa, hrowb, ← Bool.or_assoc, Bool.or_self]
  · simp only [sb_update_practice]
    exact mapPut_other _ _ _ _ hk

/-- Witness for C7's amended statement at `a = " A"`, `b = "A "`. -/
theorem C7_stable_identity_amended_witness :
    ((strTrim " A" = strTrim "A ") ∧ (strTrim " A" ≠ "") ∧
      (("u2", stableId "x") : String × String) ≠ ("u1", stableId "Sorting")) ∧
    (sb_update_practice "u1" "Sorting" 80 0 emptySb).concepts ("u2", stableId "x")
      = emptySb.concepts ("u2", stableId "x") :=
  ⟨⟨by decide, by decide, fun h => absurd (congrArg Prod.fst h) (by decide)⟩,
    (C7_stable_identity_amended " A" "A " (by decide) (by decide) "u1" "Sorting" 80 0 0 0
      emptySb ("u2", stableId "x")
      (fun h => absurd (congrArg Prod.fst h) (by decide))).2.2.2⟩

/-- Counterexample to claim C9: the edge type "prereq" differs from the
literal `PREREQ` token, yet it is stored as `PREREQ` (the code upper-cases
before comparing), not as `REL`; and on the Neo4j backend the "rest of the
batch is still written" part fails outright: the same two-node batch makes
`upload_graph` raise on its invalid first concept statement, writing
nothing beyond the `User` merge — no concept and no edge of the batch. -/
theorem C9_upload_graph_type_counterexample :
    sbUploadEdgeRows [{ from_ := some "A", to_ := some "B", type := some "prereq" }]
      = [{ source_id := stableId "A", target_id := stableId "B", type := "PREREQ" }] ∧
    (sb_upload_graph "u1" [{ name := some "A" }, { name := some "B" }]
        [{ from_ := some "A", to_ := some "B", type := some "prereq" }] 0 emptySb).edges
      ("u1", stableId "A", stableId "B", "PREREQ") = some 0 ∧
    (sb_upload_graph "u1" [{ name := some "A" }, { name := some "B" }]
        [{ from_ := some "A", to_ := some "B", type := some "prereq" }] 0 emptySb).edges
      ("u1", stableId "A", stableId "B", "REL") = none ∧
    n4_upload_graph "u1" [{ name := some "A" }, { name := some "B" }]
        [{ from_ := some "A", to_ := some "B", type := some "prereq" }] 0 emptyN4
      = ({ emptyN4 with users := boolPut "u1" emptyN4.users },
         some cypherOnCreateAfterSetError) := by
  have hrows : sbUploadEdgeRows [{ from_ := some "A", to_ := some "B", type := some "prereq" }]
      = [{ source_id := stableId "A", target_id := stableId "B", type := "PREREQ" }] := rfl
  have hne : (("u1", stableId "A", stableId "B", "REL") : String × String × String × String)
      ≠ ("u1", stableId "A", stableId "B", "PREREQ") := by
    intro h
    have h4 : "REL" = "PREREQ" := congrArg (fun p => p.2.2.2) h
    exact absurd h4 (by decide)
  refine ⟨hrows, ?_, ?_, ?_⟩
  · simp only [sb_upload_graph, hrows]
    simp only [keyFold, List.foldl]
    rw [mapPut_same]
  · simp only [sb_upload_graph, hrows]
    simp only [keyFold, List.foldl]
    rw [mapPut_other _ _ _ _ hne]
    rfl
  · rfl

/-- Claim C9 as amended: in `uploadGraph` an edge with a missing (or falsy,
e.g. empty-string) type is stored as `PREREQ`; an edge with a present type
`t` is stored as `PREREQ` exactly when `t` upper-cases to the `PREREQ`
token and as `REL` otherwise.  A node or edge whose name (endpoint name)
resolves to the empty string after trimming is silently skipped, and on
the relational-REST backend the rest of the batch is still written; on the
Neo4j backend, however, any batch containing a named node raises on the
invalid first concept statement after merging only the user, so the rest
of that batch is lost, and only an all-blank (or empty) node list lets the
edge loop run — there blank edges are skipped and a well-formed edge is
merged, with the same type normalisation, exactly when both endpoint
concepts already exist. -/
theorem C9_upload_graph_amended (a b t : String) (ha : strTrim a ≠ "")
    (hb : strTrim b ≠ "") (ht : t ≠ "") (user_id : String) (nodes : List NodeJson)
    (edges : List EdgeJson) (now : Int) (st : SbState)
    (blankNode : NodeJson) (blankEdge : EdgeJson)
    (hbn : strTrim (pyStrOr blankNode.name blankNode.title) = "")
    (hbe : strTrim (pyStrOr blankEdge.from_ blankEdge.source) = "")
    (st4 : N4State) (nodes4 : List NodeJson) (edges4 : List EdgeJson)
    (namedNode : NodeJson)
    (hnn : strTrim (pyStrOr namedNode.name namedNode.title) ≠ "") :
    sbUploadEdgeRows [{ from_ := some a, to_ := some b, type := none }]
      = [{ source_id := stableId (strTrim a), target_id := stableId (strTrim b)
           type := "PREREQ" }] ∧
    sbUploadEdgeRows [{ from_ := some a, to_ := some b, type := some "" }]
      = [{ source_id := stableId (strTrim a), target_id := stableId (strTrim b)
           type := "PREREQ" }] ∧
    sbUploadEdgeRows [{ from_ := some a, to_ := some b, type := some t }]
      = [{ source_id := stableId (strTrim a), target_id := stableId (strTrim b)
           type := if strUpper t = "PREREQ" then "PREREQ" else "REL" }] ∧
    sb_upload_graph user_id (blankNode :: nodes) edges now st
      = sb_upload_graph user_id nodes edges now st ∧
    sb_upload_graph user_id nodes (blankEdge :: edges) now st
      = sb_upload_graph user_id nodes edges now st ∧
    n4_upload_graph user_id (namedNode :: nodes4) edges4 now st4
      = ({ st4 with users := boolPut user_id st4.users },
         some cypherOnCreateAfterSetError) ∧
    n4_upload_graph user_id (blankNode :: nodes4) edges4 now st4
      = n4_upload_graph user_id nodes4 edges4 now st4 ∧
    n4_upload_graph user_id [] (blankEdge :: edges4) now st4
      = n4_upload_graph user_id [] edges4 now st4 ∧
    ((st4.concepts (stableId (strTrim a))).isSome = true →
      (st4.concepts (stableId (strTrim b))).isSome = true →
      n4_upload_graph user_id [] [{ from_ := some a, to_ := some b, type := some t }] now st4
        = ({ st4 with
             users := boolPut user_id st4.users
             prereq := if strUpper t = "PREREQ"
               then boolPut (stableId (strTrim a), stableId (strTrim b)) st4.prereq
               else st4.prereq
             rel := if strUpper t = "PREREQ" then st4.rel
               else boolPut (stableId (strTrim a), stableId (strTrim b)) st4.rel },
           none)) := by
  have ha0 : a ≠ "" := by
    intro h
    apply ha
    rw [h]
    rfl
  have hb0 : b ≠ "" := by
    intro h
    apply hb
    rw [h]
    rfl
  refine ⟨?_, ?_, ?_, ?_, ?_, ?_, ?_, ?_, ?_⟩
  · simp only [sbUploadEdgeRows, List.filterMap_cons, List.filterMap_nil,
      pyStrOr, pyStrOrD, truthyStr]
    rw [if_neg ha0, if_neg hb0]
    simp only [if_neg ha, if_neg hb]
    rfl
  · simp only [sbUploadEdgeRows, List.filterMap_cons, List.filterMap_nil,
      pyStrOr, pyStrOrD, truthyStr]
    rw [if_neg ha0, if_neg hb0]
    simp only [if_neg ha, if_neg hb]
    rfl
  · simp only [sbUploadEdgeRows, List.filterMap_cons, List.filterMap_nil,
      pyStrOr, pyStrOrD, truthyStr]
    rw [if_neg ha0, if_neg hb0]
    simp only [if_neg ha, if_neg hb]
    simp only [if_neg ht]
  · have hnodes : sbUploadRows (blankNode :: nodes) = sbUploadRows nodes := by
      simp only [sbUploadRows, List.filterMap_cons, hbn]
      simp
    simp only [sb_upload_graph, hnodes]
  · have hedges : sbUploadEdgeRows (blankEdge :: edges) = sbUploadEdgeRows edges := by
      simp only [sbUploadEdgeRows, List.filterMap_cons, hbe]
      simp
    simp only [sb_upload_graph, hedges]
  · have h : sbUploadRows (namedNode :: nodes4)
        = { cid := stableId (strTrim (pyStrOr namedNode.name namedNode.title))
            name := strTrim (pyStrOr namedNode.name namedNode.title)
            level := pyIntOr namedNode.level } :: sbUploadRows nodes4 := by
      simp only [sbUploadRows, List.filterMap_cons]
      simp only [if_neg hnn]
    simp only [n4_upload_graph, h]
  · have hnodes4 : sbUploadRows (blankNode :: nodes4) = sbUploadRows nodes4 := by
      simp only [sbUploadRows, List.filterMap_cons, hbn]
      simp
    simp only [n4_upload_graph, hnodes4]
  · simp only [n4_upload_graph, sbUploadRows, List.filterMap_nil, List.foldl_cons]
    rw [if_pos hbe]
  · intro hsa hsb
    simp only [n4_upload_graph, sbUploadRows, List.filterMap_nil, List.foldl_cons,
      List.foldl_nil]
    simp only [pyStrOr, pyStrOrD, truthyStr, if_neg ha0, if_neg hb0, if_neg ht,
      if_neg ha, if_neg hb]
    simp only [hsa, hsb, Bool.and_self, if_true]
    by_cases htyp : strUpper t = "PREREQ"
    · simp only [if_pos htyp]
    · simp only [if_neg htyp]

/-! ## Claims about the request handlers -/

/-- The stored `unlocked_order` of a session (0 when the session row is
absent, matching `int(s.get("unlocked_order", 0))`). -/
def unlockedOf (db : Db) (sid : String) : Int :=
  ((lookupAL db.sessions sid).map Session.unlocked_order).getD 0

/-- One `submit` call never decreases any session's stored unlock order. -/
theorem submit_unlocked_mono (db : Db) (g : SbState) (sbAvail graphFails : Bool)
    (session_id node_id body_user answer : String) (grade : Grade) (now : Int)
    (sid : String) :
    unlockedOf db sid
      ≤ unlockedOf
          (submit db g sbAvail graphFails session_id node_id body_user answer grade now).1
          sid := by
  simp only [submit]
  split
  · exact le_refl _
  next s hls =>
    split
    · exact le_refl _
    · split
      · exact le_refl _
      next plan hlp =>
        split
        · exact le_refl _
        next node hln =>
          split
          · exact le_refl _
          next hord =>
            split
            next hpass =>
              dsimp only [unlockedOf]
              rw [lookupAL_updateAL]
              by_cases hsid : sid = session_id
              · subst hsid
                rw [if_pos rfl, hls]
                simp [le_max_left]
              · rw [if_neg hsid]
            next hpass => exact le_refl _

/-- A submission request as fed to a sequence of `submit` calls. -/
structure SubmitCall where
  session_id : String
  node_id : String
  body_user : String
  answer : String
  grade : Grade
  graphFails : Bool
  now : Int
deriving DecidableEq

def runSubmits (sbAvail : Bool) (calls : List SubmitCall) (db : Db) (g : SbState) :
    Db × SbState :=
  calls.foldl
    (fun p c =>
      let r := submit p.1 p.2 sbAvail c.graphFails c.session_id c.node_id c.body_user
        c.answer c.grade c.now
      (r.1, r.2.1))
    (db, g)

/-- No sequence of submissions ever decreases a session's unlock order. -/
theorem runSubmits_unlocked_mono (sbAvail : Bool) (calls : List SubmitCall) :
    ∀ (db : Db) (g : SbState) (sid : String),
      unlockedOf db sid ≤ unlockedOf (runSubmits sbAvail calls db g).1 sid := by
  induction calls with
  | nil => intro db g sid; exact le_refl _
  | cons c cs ih =>
    intro db g sid
    exact le_trans
      (submit_unlocked_mono db g sbAvail c.graphFails c.session_id c.node_id c.body_user
        c.answer c.grade c.now sid)
      (ih _ _ sid)

theorem lookupAL_replaceAL {β : Type} (l : List (String × β)) (k : String) (v : β) :
    lookupAL (replaceAL l k v) k = some v := by
  simp only [replaceAL]
  by_cases h : (l.find? (fun p => p.1 = k)).isSome
  · rw [if_pos h, lookupAL_updateAL, if_pos rfl]
    cases hf : l.find? (fun p => p.1 = k) with
    | none => rw [hf] at h; simp at h
    | some p => simp [lookupAL, hf]
  · rw [if_neg h]
    cases hf : l.find? (fun p => p.1 = k) with
    | some p => rw [hf] at h; simp at h
    | none => simp [lookupAL, List.find?_append, hf]

/-- Claim C1: under a session with a persisted plan, a graded submission for
a node of order `k` is rejected as a 409 conflict with the state untouched
when `k > unlocked_order`; advances the stored `unlocked_order` to
`max(unlocked_order, k + 1)` when `k ≤ unlocked_order` and the grade
passes; leaves it unchanged on a failing grade; and — stepwise and over any
sequence of submissions — `unlocked_order` never decreases. -/
theorem C1_submit_progression (db : Db) (g : SbState) (sbAvail graphFails : Bool)
    (session_id node_id answer : String) (grade : Grade) (now : Int)
    (s : Session) (plan : Plan) (node : NodeJson)
    (hs : lookupAL db.sessions session_id = some s)
    (hp : lookupAL db.plans session_id = some plan)
    (hn : plan.nodes.find? (fun n => pyStr n.node_id = node_id) = some node) :
    (pyIntOr node.order > s.unlocked_order →
      submit db g sbAvail graphFails session_id node_id s.user_id answer grade now
        = (db, g, HResp.err 409 "node locked")) ∧
    (¬ pyIntOr node.order > s.unlocked_order → grade.passed = true →
      lookupAL (submit db g sbAvail graphFails session_id node_id s.user_id answer
          grade now).1.sessions session_id
        = some { s with
            unlocked_order := max s.unlocked_order (pyIntOr node.order + 1) }) ∧
    (grade.passed = false →
      lookupAL (submit db g sbAvail graphFails session_id node_id s.user_id answer
          grade now).1.sessions session_id = some s) ∧
    (∀ sid : String,
      unlockedOf db sid
        ≤ unlockedOf (submit db g sbAvail graphFails session_id node_id s.user_id answer
            grade now).1 sid) ∧
    (∀ (calls : List SubmitCall) (sid : String),
      unlockedOf db sid ≤ unlockedOf (runSubmits sbAvail calls db g).1 sid) := by
  have huser : ¬ s.user_id ≠ s.user_id := fun h => h rfl
  refine ⟨?_, ?_, ?_, ?_, ?_⟩
  · intro hord
    simp only [submit, hs, hp, hn]
    rw [if_neg huser, if_pos hord]
  · intro hord hpass
    simp only [submit, hs, hp, hn]
    rw [if_neg huser, if_neg hord, if_pos hpass]
    dsimp only
    rw [lookupAL_updateAL, if_pos rfl, hs]
    rfl
  · intro hpass
    simp only [submit, hs, hp, hn]
    rw [if_neg huser]
    by_cases hord : pyIntOr node.order > s.unlocked_order
    · rw [if_pos hord]
      exact hs
    · rw [if_neg hord, if_neg (by rw [hpass]; exact Bool.false_ne_true)]
      dsimp only
      exact hs
  · intro sid
    exact submit_unlocked_mono db g sbAvail graphFails session_id node_id s.user_id answer
      grade now sid
  · intro calls sid
    exact runSubmits_unlocked_mono sbAvail calls db g sid

/-- Concrete fixtures for the handler witnesses: one session owning a
one-node plan whose node has order 1, with `unlocked_order = 1`. -/
def wNode : NodeJson :=
  { node_id := some "n1", title := some "T", order := some 1 }

def wDb : Db :=
  { sessions := [("s1", { user_id := "u1", unlocked_order := 1 })]
    plans := [("s1", { outline := "o", nodes := [wNode] })]
    attempts := [] }

def wGrade : Grade :=
  { score := 85, passed := true, feedback := "ok" }

/-- Witness for C1: a passing grade on the order-1 node of `wDb` advances
`unlocked_order` from 1 to 2. -/
theorem C1_submit_progression_witness :
    (lookupAL wDb.sessions "s1" = some { user_id := "u1", unlocked_order := 1 } ∧
     lookupAL wDb.plans "s1" = some { outline := "o", nodes := [wNode] } ∧
     ({ outline := "o", nodes := [wNode] } : Plan).nodes.find?
        (fun n => pyStr n.node_id = "n1") = some wNode ∧
     ¬ pyIntOr wNode.order > (1 : Int) ∧ wGrade.passed = true) ∧
    lookupAL (submit wDb emptySb true false "s1" "n1" "u1" "ans" wGrade 0).1.sessions "s1"
      = some { user_id := "u1", unlocked_order := max 1 (pyIntOr wNode.order + 1) } :=
  ⟨⟨by decide, by decide, by decide, by decide, by decide⟩,
    (C1_submit_progression wDb emptySb true false "s1" "n1" "ans" wGrade 0
      { user_id := "u1", unlocked_order := 1 } { outline := "o", nodes := [wNode] } wNode
      (by decide) (by decide) (by decide)).2.1 (by decide) (by decide)⟩

/-- `ask` stores only the unlock values 0 and 1, so it preserves
nonnegativity of every session's unlock order. -/
theorem ask_unlocked_nonneg (db : Db) (g : SbState) (sbAvail graphFails : Bool)
    (session_id body_user outline : String) (nodes : List NodeJson) (now : Int)
    (h : ∀ sid : String, 0 ≤ unlockedOf db sid) :
    ∀ sid : String,
      0 ≤ unlockedOf (ask db g sbAvail graphFails session_id body_user outline nodes now).1
          sid := by
  intro sid
  simp only [ask]
  split
  · exact h sid
  next s hls =>
    split
    · exact h sid
    · dsimp only [unlockedOf]
      rw [lookupAL_updateAL]
      by_cases hsid : sid = session_id
      · rw [if_pos hsid]
        cases hl : lookupAL ({ db with
            plans := replaceAL db.plans session_id { outline := outline, nodes := nodes } } : Db).sessions
            sid with
        | none => simp
        | some t =>
          simp only [hl, Option.map_some', Option.getD_some]
          by_cases hemp : nodes.isEmpty <;> simp [hemp]
      · rw [if_neg hsid]
        exact h sid

/-- Claim C10: a plan node whose `order` is missing or 0 coerces to order 0
and is never rejected as locked while `unlocked_order ≥ 0`: the submission
reaches grading and returns a normal response, and a passing grade sets
`unlocked_order` to `max(unlocked_order, 1)`; moreover both handlers keep
every session's stored `unlocked_order` nonnegative, so every reachable
`unlocked_order` is ≥ 0. -/
theorem C10_zero_order_never_locked (db : Db) (g : SbState) (sbAvail graphFails : Bool)
    (session_id node_id answer outline : String) (nodes2 : List NodeJson)
    (grade : Grade) (now : Int) (s : Session) (plan : Plan) (node : NodeJson)
    (hs : lookupAL db.sessions session_id = some s)
    (hp : lookupAL db.plans session_id = some plan)
    (hn : plan.nodes.find? (fun n => pyStr n.node_id = node_id) = some node)
    (hord : node.order = none ∨ node.order = some 0)
    (hpos : 0 ≤ s.unlocked_order) :
    pyIntOr node.order = 0 ∧
    (∃ body : SubmitAnswerOut,
      (submit db g sbAvail graphFails session_id node_id s.user_id answer grade now).2.2
        = HResp.ok body ∧
      body.order = 0 ∧
      body.unlocked_order
        = if grade.passed then max s.unlocked_order 1 else s.unlocked_order) ∧
    (grade.passed = true →
      lookupAL (submit db g sbAvail graphFails session_id node_id s.user_id answer
          grade now).1.sessions session_id
        = some { s with unlocked_order := max s.unlocked_order 1 }) ∧
    ((∀ sid : String, 0 ≤ unlockedOf db sid) →
      (∀ sid : String,
        0 ≤ unlockedOf (submit db g sbAvail graphFails session_id node_id s.user_id answer
            grade now).1 sid) ∧
      (∀ sid : String,
        0 ≤ unlockedOf (ask db g sbAvail graphFails session_id s.user_id outline nodes2
            now).1 sid)) := by
  have huser : ¬ s.user_id ≠ s.user_id := fun h => h rfl
  have hk0 : pyIntOr node.order = 0 := by
    cases hord with
    | inl h => rw [h]; rfl
    | inr h => rw [h]; rfl
  have hnlock : ¬ pyIntOr node.order > s.unlocked_order := by
    rw [hk0]
    exact not_lt.mpr hpos
  refine ⟨hk0, ?_, ?_, ?_⟩
  · simp only [submit, hs, hp, hn]
    rw [if_neg huser, if_neg hnlock]
    by_cases hpass : grade.passed = true
    · rw [if_pos hpass]
      dsimp only
      refine ⟨_, rfl, hk0, ?_⟩
      dsimp only
      rw [if_pos hpass, hk0]
      simp
    · rw [if_neg hpass]
      dsimp only
      refine ⟨_, rfl, hk0, ?_⟩
      dsimp only
      rw [if_neg hpass]
  · intro hpass
    simp only [submit, hs, hp, hn]
    rw [if_neg huser, if_neg hnlock, if_pos hpass]
    dsimp only
    rw [lookupAL_updateAL, if_pos rfl, hs, hk0]
    simp only [Option.map_some', Option.getD_some]
    rfl
  · intro hnn
    constructor
    · intro sid
      exact le_trans (hnn sid)
        (submit_unlocked_mono db g sbAvail graphFails session_id node_id s.user_id answer
          grade now sid)
    · exact ask_unlocked_nonneg db g sbAvail graphFails session_id s.user_id outline nodes2
        now hnn

/-- Concrete fixture for the C10 witness: an order-less node in a fresh
session with `unlocked_order = 0`. -/
def wNode0 : NodeJson :=
  { node_id := some "n0" }

def wDb0 : Db :=
  { sessions := [("s1", { user_id := "u1", unlocked_order := 0 })]
    plans := [("s1", { outline := "o", nodes := [wNode0] })]
    attempts := [] }

/-- Witness for C10: the order-`none` node of a fresh session with
`unlocked_order = 0` is submittable, and a pass unlocks order 1. -/
theorem C10_zero_order_never_locked_witness :
    (lookupAL wDb0.sessions "s1" = some { user_id := "u1", unlocked_order := 0 } ∧
     lookupAL wDb0.plans "s1" = some { outline := "o", nodes := [wNode0] } ∧
     ({ outline := "o", nodes := [wNode0] } : Plan).nodes.find?
        (fun n => pyStr n.node_id = "n0") = some wNode0 ∧
     (wNode0.order = none ∨ wNode0.order = some 0) ∧
     (0 : Int) ≤ 0 ∧ wGrade.passed = true) ∧
    lookupAL (submit wDb0 emptySb true false "s1" "n0" "u1" "ans" wGrade 0).1.sessions "s1"
      = some { user_id := "u1", unlocked_order := max 0 1 } :=
  ⟨⟨by decide, by decide, by decide, Or.inl (by decide), by decide, by decide⟩,
    (C10_zero_order_never_locked wDb0 emptySb true false "s1" "n0" "ans" "o" [] wGrade 0
      { user_id := "u1", unlocked_order := 0 }
      { outline := "o", nodes := [wNode0] }
      wNode0
      (by decide) (by decide) (by decide) (Or.inl (by decide)) (by decide)).2.2.1 (by decide)⟩

/-- Claim C8: a graph-store failure is invisible to the learner.  With the
store available (`sbAvail = true`), the relational state and the HTTP
response of `ask` and of a passing `submit` are identical whether the
graph write fails (`graphFails = true`) or succeeds; a failing write
leaves the graph state untouched while a succeeding one performs it; and
even with the write failing, `ask` still answers OK with the plan
persisted and the unlock reset, and `submit` still answers OK with the
attempt row appended and the advanced `unlocked_order` stored. -/
theorem C8_graph_write_best_effort (db : Db) (g : SbState)
    (session_id node_id body_user answer outline : String) (nodes : List NodeJson)
    (grade : Grade) (now : Int) (s : Session) (plan : Plan) (node : NodeJson)
    (hs : lookupAL db.sessions session_id = some s) (hu : s.user_id = body_user)
    (hp : lookupAL db.plans session_id = some plan)
    (hn : plan.nodes.find? (fun n => pyStr n.node_id = node_id) = some node)
    (hord : ¬ pyIntOr node.order > s.unlocked_order) (hpass : grade.passed = true) :
    ((ask db g true true session_id body_user outline nodes now).1
      = (ask db g true false session_id body_user outline nodes now).1) ∧
    ((ask db g true true session_id body_user outline nodes now).2.2
      = (ask db g true false session_id body_user outline nodes now).2.2) ∧
    ((ask db g true true session_id body_user outline nodes now).2.1 = g) ∧
    ((ask db g true false session_id body_user outline nodes now).2.1
      = sb_upsert_plan_concepts body_user nodes now g) ∧
    ((ask db g true true session_id body_user outline nodes now).2.2
      = HResp.ok { outline := outline, nodes := nodes
                   unlocked_order := if nodes.isEmpty then 0 else 1 }) ∧
    (lookupAL (ask db g true true session_id body_user outline nodes now).1.plans session_id
      = some { outline := outline, nodes := nodes }) ∧
    (lookupAL (ask db g true true session_id body_user outline nodes now).1.sessions
        session_id
      = some { s with unlocked_order := if nodes.isEmpty then 0 else 1 }) ∧
    ((submit db g true true session_id node_id body_user answer grade now).1
      = (submit db g true false session_id node_id body_user answer grade now).1) ∧
    ((submit db g true true session_id node_id body_user answer grade now).2.2
      = (submit db g true false session_id node_id body_user answer grade now).2.2) ∧
    ((submit db g true true session_id node_id body_user answer grade now).2.1 = g) ∧
    ((submit db g true false session_id node_id body_user answer grade now).2.1
      = sb_update_practice body_user (node.title.getD "") grade.score now g) ∧
    (∃ body : SubmitAnswerOut,
      (submit db g true true session_id node_id body_user answer grade now).2.2
        = HResp.ok body ∧
      body.unlocked_order = max s.unlocked_order (pyIntOr node.order + 1)) ∧
    ((submit db g true true session_id node_id body_user answer grade now).1.attempts
      = db.attempts ++ [{ session_id := session_id, user_id := body_user, node_id := node_id
                          node_order := pyIntOr node.order, answer := answer
                          score := grade.score, passed := grade.passed
                          feedback := grade.feedback }]) ∧
    (lookupAL (submit db g true true session_id node_id body_user answer
        grade now).1.sessions session_id
      = some { s with unlocked_order := max s.unlocked_order (pyIntOr node.order + 1) }) := by
  have huser : ¬ s.user_id ≠ body_user := fun h => h hu
  have hlu : lookupAL (updateAL db.sessions session_id
      (fun t => { t with unlocked_order := if nodes.isEmpty then 0 else 1 })) session_id
      = some { s with unlocked_order := if nodes.isEmpty then 0 else 1 } := by
    rw [lookupAL_updateAL, if_pos rfl, hs]
    rfl
  have hlu2 : lookupAL (updateAL db.sessions session_id
      (fun t => { t with
        unlocked_order := max s.unlocked_order (pyIntOr node.order + 1) })) session_id
      = some { s with
          unlocked_order := max s.unlocked_order (pyIntOr node.order + 1) } := by
    rw [lookupAL_updateAL, if_pos rfl, hs]
    rfl
  refine ⟨?_, ?_, ?_, ?_, ?_, ?_, ?_, ?_, ?_, ?_, ?_, ?_, ?_, ?_⟩
  · simp only [ask, hs]
    rw [if_neg huser, if_neg huser]
  · simp only [ask, hs]
    rw [if_neg huser, if_neg huser]
  · simp only [ask, hs]
    rw [if_neg huser]
    rfl
  · simp only [ask, hs]
    rw [if_neg huser]
    rfl
  · simp only [ask, hs]
    rw [if_neg huser]
    dsimp only
    rw [hlu]
  · simp only [ask, hs]
    rw [if_neg huser]
    dsimp only
    exact lookupAL_replaceAL db.plans session_id { outline := outline, nodes := nodes }
  · simp only [ask, hs]
    rw [if_neg huser]
    dsimp only
    exact hlu
  · simp only [submit, hs, hp, hn]
    rw [if_neg huser, if_neg huser, if_neg hord, if_neg hord, if_pos hpass, if_pos hpass]
  · simp only [submit, hs, hp, hn]
    rw [if_neg huser, if_neg huser, if_neg hord, if_neg hord, if_pos hpass, if_pos hpass]
  · simp only [submit, hs, hp, hn]
    rw [if_neg huser, if_neg hord, if_pos hpass]
    rfl
  · simp only [submit, hs, hp, hn]
    rw [if_neg huser, if_neg hord, if_pos hpass]
    rfl
  · simp only [submit, hs, hp, hn]
    rw [if_neg huser, if_neg hord, if_pos hpass]
    dsimp only
    exact ⟨_, rfl, rfl⟩
  · simp only [submit, hs, hp, hn]
    rw [if_neg huser, if_neg hord, if_pos hpass]
  · simp only [submit, hs, hp, hn]
    rw [if_neg huser, if_neg hord, if_pos hpass]
    dsimp only
    exact hlu2

/-- Witness for C8 on `wDb`: the order-1 node, a passing grade, and a
plan regeneration, with the graph write failing. -/
theorem C8_graph_write_best_effort_witness :
    (lookupAL wDb.sessions "s1" = some { user_id := "u1", unlocked_order := 1 } ∧
     ("u1" : String) = "u1" ∧
     lookupAL wDb.plans "s1" = some { outline := "o", nodes := [wNode] } ∧
     ({ outline := "o", nodes := [wNode] } : Plan).nodes.find?
        (fun n => pyStr n.node_id = "n1") = some wNode ∧
     ¬ pyIntOr wNode.order > (1 : Int) ∧ wGrade.passed = true) ∧
    lookupAL (submit wDb emptySb true true "s1" "n1" "u1" "ans" wGrade 0).1.sessions "s1"
      = some { user_id := "u1", unlocked_order := max 1 (pyIntOr wNode.order + 1) } :=
  ⟨⟨by decide, rfl, by decide, by decide, by decide, by decide⟩,
    (C8_graph_write_best_effort wDb emptySb "s1" "n1" "u1" "ans" "o" [wNode] wGrade 0
      { user_id := "u1", unlocked_order := 1 } { outline := "o", nodes := [wNode] } wNode
      (by decide) rfl (by decide) (by decide) (by decide)
      (by decide)).2.2.2.2.2.2.2.2.2.2.2.2.2⟩

/-- A graph state whose concept table is populated at every id, so the
endpoint-existence guards of the edge loop hold definitionally. -/
def wN4 : N4State :=
  { users := fun _ => false
    concepts := fun _ => some { name := "c", level := none, created_at := 0, updated_at := 0 }
    seen := fun _ => none
    practiced := fun _ => none
    prereq := fun _ => false
    rel := fun _ => false }

/-- Witness for C9's amended statement at `a = " X"`, `b = "Y"`, `t = "rel"`,
with an all-absent blank node and blank edge, the named node `{name: "N"}`,
and the everywhere-populated graph state `wN4`. -/
theorem C9_upload_graph_amended_witness :
    ((strTrim " X" ≠ "") ∧ (strTrim "Y" ≠ "") ∧ ("rel" ≠ "") ∧
      (strTrim (pyStrOr (none : Option String) none) = "") ∧
      (strTrim (pyStrOr (none : Option String) none) = "") ∧
      (strTrim (pyStrOr (some "N") (none : Option String)) ≠ "")) ∧
    sbUploadEdgeRows [{ from_ := some " X", to_ := some "Y", type := some "rel" }]
      = [{ source_id := stableId (strTrim " X"), target_id := stableId (strTrim "Y")
           type := if strUpper "rel" = "PREREQ" then "PREREQ" else "REL" }] ∧
    n4_upload_graph "u1" [{ name := some "N" }] [] 0 wN4
      = ({ wN4 with users := boolPut "u1" wN4.users },
         some cypherOnCreateAfterSetError) ∧
    (wN4.concepts (stableId (strTrim " X"))).isSome = true ∧
    n4_upload_graph "u1" [] [{ from_ := some " X", to_ := some "Y", type := some "rel" }] 0 wN4
      = ({ wN4 with
           users := boolPut "u1" wN4.users
           prereq := if strUpper "rel" = "PREREQ"
             then boolPut (stableId (strTrim " X"), stableId (strTrim "Y")) wN4.prereq
             else wN4.prereq
           rel := if strUpper "rel" = "PREREQ" then wN4.rel
             else boolPut (stableId (strTrim " X"), stableId (strTrim "Y")) wN4.rel },
         none) := by
  have H := C9_upload_graph_amended " X" "Y" "rel" (by decide) (by decide) (by decide)
    "u1" [] [] 0 emptySb {} {} (by decide) (by decide)
    wN4 [] [] { name := some "N" } (by decide)
  exact ⟨⟨by decide, by decide, by decide, by decide, by decide, by decide⟩,
    H.2.2.1, H.2.2.2.2.2.1, rfl, H.2.2.2.2.2.2.2.2 rfl rfl⟩

end Teacher
